import Mathlib

/-!
Shallow embedding of the fee dues/ledger reconciliation engine of the
SchoolERP backend (routers/fee_ledger.py, routers/collection.py,
models/fee_models.py, models/paid_history.py, models/students.py,
models/masters.py).

Modelling conventions:
- SQLAlchemy Float columns are modelled as ℚ (exact rationals); the Python
  code only adds, subtracts and compares these values.
- The database session is a record of lists, one per table; queries become
  list filters and finds, mutations become functional updates.  Primary keys
  are unique in any real database state, so mutating the single ORM object
  returned by a lookup is modelled as updating every row with the matching
  key (they coincide whenever keys are unique, and the excess generality is
  harmless).
- The current date is threaded explicitly: functions take the current
  academic month token (what get_current_academic_month returns) and, for
  receipts, the calendar year.
- Python truthiness tests on floats and nullable integers are translated
  literally (zero and None are falsy).
-/

namespace SchoolERP

/-- MONTH_ORDER from fee_ledger.py: the academic month cycle April to March. -/
def MONTH_ORDER : List String :=
  ["Apr", "May", "Jun", "Jul", "Aug", "Sep", "Oct", "Nov", "Dec", "Jan", "Feb", "Mar"]

/-- Row of fee_head_masters (models/fee_models.py FeeHeadMaster). -/
structure FeeHeadMaster where
  id : Nat
  head_name : String
  frequency : String
  is_transport : Bool
  is_active : Bool
deriving Repr, DecidableEq

/-- Row of fee_structures (models/fee_models.py FeeStructure). -/
structure FeeStructure where
  id : Nat
  class_id : Nat
  fee_head_id : Nat
  amount : ℚ
  academic_year : String
  is_active : Bool
deriving Repr, DecidableEq

/-- Row of students (models/students.py Student), restricted to the fields
the fee engine reads and writes. -/
structure Student where
  id : Nat
  class_id : Nat
  transport_opted : Bool
  pickup_point_id : Option Nat
  status : Bool
  current_balance : ℚ
deriving Repr, DecidableEq

/-- Row of transport_points (models/masters.py TransportMaster). -/
structure TransportMaster where
  id : Nat
  monthly_charge : ℚ
deriving Repr, DecidableEq

/-- Row of student_fee_ledgers (models/fee_models.py StudentFeeLedger).
The payment_breakdown JSON dict is an insertion-ordered association list. -/
structure StudentFeeLedger where
  student_id : Nat
  receipt_no : String
  months_paid : List String
  total_due : ℚ
  discount : ℚ
  fine : ℚ
  net_payable : ℚ
  paid_amount : ℚ
  balance_due : ℚ
  payment_mode : String
  remarks : Option String
  payment_breakdown : List (String × ℚ)
deriving Repr, DecidableEq

/-- Row of receipt_counters (models/fee_models.py ReceiptCounter). -/
structure ReceiptCounter where
  year : Nat
  last_number : Nat
deriving Repr, DecidableEq

/-- Row of paid_months (models/paid_history.py PaidMonth). -/
structure PaidMonth where
  student_id : Nat
  month : String
  session : String
deriving Repr, DecidableEq

/-- Row of fee_transactions (models/transactions.py FeeTransaction), the
legacy ledger written by routers/collection.py.  The RECEIPT_DATA JSON
serialization embedded in remarks is not modelled (pure string formatting,
read back only for display). -/
structure FeeTransaction where
  student_id : Nat
  total_amount : ℚ
  additional_fee : ℚ
  discount : ℚ
  net_payable : ℚ
  amount_paid : ℚ
  balance_amount : ℚ
  payment_mode : String
  remarks : Option String
deriving Repr, DecidableEq

/-- The database state: one list per table the fee engine touches. -/
structure DB where
  students : List Student
  fee_heads : List FeeHeadMaster
  fee_structures : List FeeStructure
  transport_points : List TransportMaster
  ledgers : List StudentFeeLedger
  receipt_counters : List ReceiptCounter
  paid_months : List PaidMonth
  fee_transactions : List FeeTransaction
deriving Repr, DecidableEq

/-- Python str.zfill for nonnegative numerals: left-pad with zeros to the
requested width. -/
def zfill (width : Nat) (s : String) : String :=
  if s.length < width then String.mk (List.replicate (width - s.length) '0') ++ s else s

/-- get_months_till_current of fee_ledger.py, with the current academic
month token passed explicitly instead of read from the clock. -/
def get_months_till_current (current : String) : List String :=
  if MONTH_ORDER.contains current then
    MONTH_ORDER.take (MONTH_ORDER.indexOf current + 1)
  else MONTH_ORDER

/-- Python float truthiness: a float used in a condition is falsy exactly
when it is zero, so a value guarded by an "or 0" or a conditional default
comes out unchanged except that zero maps to the literal zero. -/
def pyFloatOrZero (x : ℚ) : ℚ := if x = 0 then 0 else x

/-- Python truthiness of a nullable integer column: None and 0 are falsy. -/
def pyTruthyOpt (x : Option Nat) : Bool :=
  match x with
  | none => false
  | some n => n != 0

/-- The fee_head_val relationship of FeeStructure: join on fee_head_id. -/
def feeHeadVal (db : DB) (fs : FeeStructure) : Option FeeHeadMaster :=
  db.fee_heads.find? (fun h => h.id == fs.fee_head_id)

/-- First student row with the given primary key (db.query(Student).filter(Student.id == sid).first()). -/
def findStudent (db : DB) (sid : Nat) : Option Student :=
  db.students.find? (fun s => s.id == sid)

/-- Union of months_paid across all ledger rows of one student, as collected
by both get_student_dues and calculate_student_dues (membership in the
concatenation is membership in the union of the sets). -/
def allPaidMonths (db : DB) (sid : Nat) : List String :=
  ((db.ledgers.filter (fun l => l.student_id == sid)).map (fun l => l.months_paid)).flatten

/-- The FeeStructure query of get_student_dues: active rows of the given
class (no amount filter, no academic-year filter). -/
def classStructures (db : DB) (cid : Nat) : List FeeStructure :=
  db.fee_structures.filter (fun fs => fs.class_id == cid && fs.is_active)

/-- The FeeStructure query of calculate_student_dues: active rows of the
class with amount strictly positive. -/
def duesQueryStructures (db : DB) (cid : Nat) : List FeeStructure :=
  db.fee_structures.filter
    (fun fs => fs.class_id == cid && fs.is_active && decide (0 < fs.amount))

/-- Transport lookup shared by both dues computations: the student must have
transport_opted, a truthy pickup_point_id, and a matching transport row. -/
def transportFor (db : DB) (student : Student) : Option TransportMaster :=
  match student.pickup_point_id with
  | none => none
  | some pid =>
    if student.transport_opted && pid != 0 then
      db.transport_points.find? (fun t => t.id == pid)
    else none

/-- One line of the dues list returned by GET dues/{student_id}.  Entries
produced by the class-fee loop carry is_transport = false (the Python dict
simply lacks the key there). -/
structure DueLine where
  fee_head : String
  fee_head_id : Nat
  month : String
  amount : ℚ
  status : String
  is_transport : Bool
deriving Repr, DecidableEq

/-- Status string for a month given the paid set. -/
def monthStatus (paid : List String) (m : String) : String :=
  if paid.contains m then "Paid" else "Due"

/-- The per-month class-fee entries of get_student_dues: one line per active
structure row of the class whose fee head exists and is not transport. -/
def classLinesFor (db : DB) (structures : List FeeStructure) (paid : List String)
    (m : String) : List DueLine :=
  structures.filterMap (fun fs =>
    match feeHeadVal db fs with
    | some h =>
      if h.is_transport then none
      else some { fee_head := h.head_name, fee_head_id := fs.fee_head_id, month := m,
                  amount := fs.amount, status := monthStatus paid m, is_transport := false }
    | none => none)

/-- The per-month transport entries of get_student_dues: one line per month
when the student opted in and the pickup point resolves, sharing the paid
status of the month. -/
def transportLinesFor (db : DB) (student : Student) (paid : List String)
    (months : List String) : List DueLine :=
  match transportFor db student with
  | some t => months.map (fun m =>
      { fee_head := "Transport Fee", fee_head_id := 0, month := m,
        amount := t.monthly_charge, status := monthStatus paid m, is_transport := true })
  | none => []

/-- The dues list built by get_student_dues (fee_ledger.py lines 292-333):
month-major loop over class structures, then one transport line per month
when the student opted in and the pickup point resolves. -/
def getStudentDuesList (db : DB) (student : Student) (current : String) : List DueLine :=
  let paid := allPaidMonths db student.id
  let structures := classStructures db student.class_id
  let months := get_months_till_current current
  let classLines := months.flatMap (fun m => classLinesFor db structures paid m)
  classLines ++ transportLinesFor db student paid months

/-- The total_due accumulated by get_student_dues: the running sum adds the
amount of exactly the entries emitted with status Due, in emission order. -/
def getStudentDuesTotal (db : DB) (student : Student) (current : String) : ℚ :=
  ((getStudentDuesList db student current).filter (fun l => l.status == "Due")).foldl
    (fun acc l => acc + l.amount) 0

/-- calculate_student_dues of fee_ledger.py (lines 579-633).  The function
also accumulates total_paid from the ledger rows, but that sum does not
enter the returned value (dead in the source as well, see the comment at
lines 629-631), so it is omitted here. -/
def calculate_student_dues (db : DB) (student : Student) (current : String) : ℚ :=
  let months_till_now := get_months_till_current current
  let paid_months := allPaidMonths db student.id
  let fee_structures := duesQueryStructures db student.class_id
  let base_fee := fee_structures.foldl (fun acc fs =>
    match feeHeadVal db fs with
    | some h => if h.is_transport then acc else acc + fs.amount
    | none => acc) 0
  let monthly_fee := base_fee +
    (match transportFor db student with
     | some t => pyFloatOrZero t.monthly_charge
     | none => 0)
  let total_due := months_till_now.foldl (fun acc m =>
    if paid_months.contains m then acc else acc + monthly_fee) 0
  max total_due 0

/-- Last receipt number recorded for a year (0 when no counter row exists). -/
def lastNumber (counters : List ReceiptCounter) (year : Nat) : Nat :=
  match counters.find? (fun c => c.year == year) with
  | some c => c.last_number
  | none => 0

/-- Counter-row update after an issuance (the ORM mutates the row found by
year; year is unique, so updating every matching row coincides). -/
def updateCounters (counters : List ReceiptCounter) (year n : Nat) : List ReceiptCounter :=
  counters.map (fun c => if c.year == year then { c with last_number := n } else c)

/-- generate_receipt_number of fee_ledger.py (lines 109-121): find or create
the counter row for the year, increment it by one, and format
REC-year-zfilled.  Returns the string and the updated counter table. -/
def generate_receipt_number (year : Nat) (counters : List ReceiptCounter) :
    String × List ReceiptCounter :=
  match counters.find? (fun c => c.year == year) with
  | some c =>
    let n := c.last_number + 1
    ("REC-" ++ toString year ++ "-" ++ zfill 4 (toString n), updateCounters counters year n)
  | none =>
    ("REC-" ++ toString year ++ "-" ++ zfill 4 (toString 1),
     counters ++ [{ year := year, last_number := 1 }])

/-- One element of the selected_items payload: a JSON object whose keys are
read with .get and per-key defaults, hence optional fields. -/
structure SelectedItem where
  fee_head : Option String
  month : Option String
  amount : Option ℚ
deriving Repr, DecidableEq

/-- PaymentRequest of fee_ledger.py, after Pydantic validation. -/
structure PaymentRequest where
  student_id : Nat
  selected_months : List String
  selected_items : List SelectedItem
  payment_mode : String
  discount : ℚ
  fine : ℚ
  amount_received : ℚ
  remarks : Option String
deriving Repr, DecidableEq

/-- Python dict assignment d[k] = v on an insertion-ordered dict. -/
def dictInsert (d : List (String × ℚ)) (k : String) (v : ℚ) : List (String × ℚ) :=
  if d.any (fun p => p.1 == k) then d.map (fun p => if p.1 == k then (k, v) else p)
  else d ++ [(k, v)]

/-- Breakdown key of one selected item: fee_head|month with .get defaults. -/
def itemKey (item : SelectedItem) : String :=
  (item.fee_head.getD "Unknown") ++ "|" ++ (item.month.getD "N/A")

/-- The payment_breakdown built from selected_items in collect_fee. -/
def itemsBreakdown (items : List SelectedItem) : List (String × ℚ) :=
  items.foldl (fun d item => dictInsert d (itemKey item) (item.amount.getD 0)) []

/-- total_due = sum(item.get(amount, 0) for item in selected_items). -/
def itemsTotal (items : List SelectedItem) : ℚ :=
  items.foldl (fun acc item => acc + item.amount.getD 0) 0

/-- The flag previous_balance_already_included computed in the same loop
that builds the breakdown: some item has a fee_head whose lowercase form
starts with "previous balance". -/
def prevBalanceIncluded (items : List SelectedItem) : Bool :=
  items.any (fun item => ((item.fee_head.getD "").toLower).startsWith "previous balance")

/-- Condition of collect_fee line 392: the carried balance is positive and
not already present among the selected items. -/
def prevBalanceApplies (student : Student) (items : List SelectedItem) : Bool :=
  decide (0 < pyFloatOrZero student.current_balance) && !(prevBalanceIncluded items)

/-- Balance write on the students table (the ORM mutates the row found by
primary key; the id is unique, so updating every matching row coincides). -/
def setStudentBalance (students : List Student) (sid : Nat) (b : ℚ) : List Student :=
  students.map (fun s => if s.id == sid then { s with current_balance := b } else s)

/-- collect_fee of fee_ledger.py (lines 360-442), parameterized by the
current academic month token and calendar year.  The happy path builds the
ledger row, flushes it (so the balance recomputation sees it), recomputes
the full balance via calculate_student_dues and commits; the model has no
failing persistence, so the try/except rollback arm is unreachable. -/
def collect_fee (db : DB) (current : String) (year : Nat) (pay : PaymentRequest) :
    Except String (DB × String × ℚ) :=
  match findStudent db pay.student_id with
  | none => Except.error "Student not found"
  | some student =>
    let total_due := itemsTotal pay.selected_items
    let previous_balance := pyFloatOrZero student.current_balance
    let breakdown := itemsBreakdown pay.selected_items
    let applies := prevBalanceApplies student pay.selected_items
    let breakdown :=
      if applies then dictInsert breakdown "Previous Balance|Carried Forward" previous_balance
      else breakdown
    let total_due := if applies then total_due + previous_balance else total_due
    let net_payable := total_due - pay.discount + pay.fine
    let balance_due := net_payable - pay.amount_received
    let issued := generate_receipt_number year db.receipt_counters
    let receipt_no := issued.1
    let counters2 := issued.2
    let ledger : StudentFeeLedger :=
      { student_id := pay.student_id, receipt_no := receipt_no,
        months_paid := pay.selected_months, total_due := total_due,
        discount := pay.discount, fine := pay.fine, net_payable := net_payable,
        paid_amount := pay.amount_received, balance_due := balance_due,
        payment_mode := pay.payment_mode, remarks := pay.remarks,
        payment_breakdown := breakdown }
    let db2 := { db with ledgers := db.ledgers ++ [ledger], receipt_counters := counters2 }
    let new_balance := calculate_student_dues db2 student current
    let db3 := { db2 with students := setStudentBalance db2.students pay.student_id new_balance }
    Except.ok (db3, receipt_no, new_balance)

/-- One step of the sync loop of sync_all_student_balances: recompute the
balance of one student against the current database and write it back. -/
def syncStep (current : String) (acc : DB × Nat × ℚ) (student : Student) : DB × Nat × ℚ :=
  let new_balance := calculate_student_dues acc.1 student current
  ({ acc.1 with students := setStudentBalance acc.1.students student.id new_balance },
   acc.2.1 + 1, acc.2.2 + new_balance)

/-- sync_all_student_balances of fee_ledger.py (lines 636-660): iterate the
active students, recompute and store each balance, and return the updated
count and the accumulated pending total (the response rounds the total to
two decimals for display; the rounding of an exactly equal value is equal,
so it is not modelled). -/
def sync_all_student_balances (db : DB) (current : String) : DB × Nat × ℚ :=
  let students := db.students.filter (fun s => s.status)
  students.foldl (syncStep current) (db, 0, 0)

/-- recalculate_single_student of fee_ledger.py (lines 663-684): recompute
one balance and store it, returning the old and new values (display
rounding to two decimals again not modelled). -/
def recalculate_single_student (db : DB) (sid : Nat) (current : String) :
    Except String (DB × ℚ × ℚ) :=
  match findStudent db sid with
  | none => Except.error "Student not found"
  | some student =>
    let new_balance := calculate_student_dues db student current
    let old_balance := pyFloatOrZero student.current_balance
    Except.ok ({ db with students := setStudentBalance db.students sid new_balance },
               old_balance, new_balance)

/-- FullPaymentRequest of routers/collection.py. -/
structure FullPaymentRequest where
  student_id : Nat
  total_amount : ℚ
  additional_fee : ℚ
  discount : ℚ
  net_payable : ℚ
  paid_amount : ℚ
  balance : ℚ
  payment_mode : String
  remarks : Option String
  paid_months_list : List String
deriving Repr, DecidableEq

/-- The PaidMonth insertion loop of submit_full_payment: for each month, add
a row unless one with the same student and month is already present.  The
session autoflushes before each existence query, so a month added earlier
in the same loop is seen by later iterations. -/
def insertPaidMonths (sid : Nat) (months : List String) (rows : List PaidMonth) :
    List PaidMonth :=
  months.foldl (fun rows m =>
    if rows.any (fun r => r.student_id == sid && r.month == m) then rows
    else rows ++ [{ student_id := sid, month := m, session := "2025-26" }]) rows

/-- submit_full_payment of routers/collection.py (lines 66-91): append a
legacy FeeTransaction, mirror the paid months into paid_months skipping
existing rows, and overwrite the student balance with the client-supplied
balance. -/
def submit_full_payment (db : DB) (pay : FullPaymentRequest) : DB :=
  let txn : FeeTransaction :=
    { student_id := pay.student_id, total_amount := pay.total_amount,
      additional_fee := pay.additional_fee, discount := pay.discount,
      net_payable := pay.net_payable, amount_paid := pay.paid_amount,
      balance_amount := pay.balance, payment_mode := pay.payment_mode,
      remarks := pay.remarks }
  { db with
      fee_transactions := db.fee_transactions ++ [txn],
      paid_months := insertPaidMonths pay.student_id pay.paid_months_list db.paid_months,
      students := setStudentBalance db.students pay.student_id pay.balance }

/-! General helper lemmas about the list operations used by the embedding. -/

lemma find?_append_none {α} (p : α → Bool) (l1 l2 : List α) (h : l1.find? p = none) :
    (l1 ++ l2).find? p = l2.find? p := by
  induction l1 with
  | nil => rfl
  | cons a l ih =>
    rw [List.cons_append]
    cases hpa : p a with
    | true => rw [List.find?_cons_of_pos _ hpa] at h; exact absurd h (by simp)
    | false =>
      rw [List.find?_cons_of_neg _ (by simp [hpa])] at h
      rw [List.find?_cons_of_neg _ (by simp [hpa])]
      exact ih h

lemma find?_updateCounters (cs : List ReceiptCounter) (y n : Nat) :
    ((updateCounters cs y n).find? (fun c => c.year == y))
      = (cs.find? (fun c => c.year == y)).map (fun c => { c with last_number := n }) := by
  induction cs with
  | nil => rfl
  | cons c cs ih =>
    by_cases h : c.year = y
    · simp [updateCounters, List.find?_cons, h]
    · simp only [updateCounters, List.map_cons] at *
      rw [if_neg (by simp [h]), List.find?_cons, List.find?_cons]
      simp only [show (c.year == y) = false by simp [h]]
      exact ih

/-! Receipt number generator lemmas (claim C2). -/

/-- Counter table after i successive issuances for one year. -/
def countersAfter (year : Nat) (cs : List ReceiptCounter) : Nat → List ReceiptCounter
  | 0 => cs
  | n + 1 => (generate_receipt_number year (countersAfter year cs n)).2

/-- Sequence number embedded in the receipt returned by the (i+1)-th
issuance of a run that starts from counter table cs. -/
def seqAt (year : Nat) (cs : List ReceiptCounter) (i : Nat) : Nat :=
  lastNumber (countersAfter year cs i) year + 1

lemma gen_receipt_fst (y : Nat) (cs : List ReceiptCounter) :
    (generate_receipt_number y cs).1
      = "REC-" ++ toString y ++ "-" ++ zfill 4 (toString (lastNumber cs y + 1)) := by
  unfold generate_receipt_number lastNumber
  cases h : cs.find? (fun c => c.year == y) <;> simp [h]

lemma gen_receipt_lastNumber (y : Nat) (cs : List ReceiptCounter) :
    lastNumber (generate_receipt_number y cs).2 y = lastNumber cs y + 1 := by
  unfold generate_receipt_number
  cases h : cs.find? (fun c => c.year == y) with
  | none =>
    simp only [h, lastNumber]
    rw [find?_append_none _ _ _ h]
    simp [List.find?]
  | some c =>
    simp only [h, lastNumber, find?_updateCounters]
    rfl

lemma seqAt_succ (y : Nat) (cs : List ReceiptCounter) (i : Nat) :
    seqAt y cs (i + 1) = seqAt y cs i + 1 := by
  show lastNumber (generate_receipt_number y (countersAfter y cs i)).2 y + 1 = seqAt y cs i + 1
  rw [gen_receipt_lastNumber]
  rfl

lemma seqAt_shift (y : Nat) (cs : List ReceiptCounter) :
    ∀ i, seqAt y cs i = seqAt y cs 0 + i := by
  intro i
  induction i with
  | zero => rfl
  | succ i ih => rw [seqAt_succ, ih]; omega

/-- C2: every issuance returns a string of the form REC-year-(zero-padded
sequence); when no counter row exists for the year one is created with
last_number 0 and then incremented, so the table gains a row with value
0 + 1; every issuance increments the stored counter by exactly one; and the
sequence numbers returned by successive issuances within one year are
strictly increasing, hence never duplicated or reused. -/
theorem receipt_numbers_sequential :
    (∀ (year : Nat) (cs : List ReceiptCounter),
        (generate_receipt_number year cs).1
          = "REC-" ++ toString year ++ "-" ++ zfill 4 (toString (lastNumber cs year + 1))) ∧
    (∀ (year : Nat) (cs : List ReceiptCounter),
        cs.find? (fun c => c.year == year) = none →
        (generate_receipt_number year cs).2
          = cs ++ [{ year := year, last_number := 0 + 1 }]) ∧
    (∀ (year : Nat) (cs : List ReceiptCounter),
        lastNumber (generate_receipt_number year cs).2 year = lastNumber cs year + 1) ∧
    (∀ (year : Nat) (cs : List ReceiptCounter) (i : Nat),
        (generate_receipt_number year (countersAfter year cs i)).1
          = "REC-" ++ toString year ++ "-" ++ zfill 4 (toString (seqAt year cs i))) ∧
    (∀ (year : Nat) (cs : List ReceiptCounter) (i j : Nat), i < j →
        seqAt year cs i < seqAt year cs j) := by
  refine ⟨gen_receipt_fst, ?_, gen_receipt_lastNumber, ?_, ?_⟩
  · intro year cs h
    unfold generate_receipt_number
    rw [h]
  · intro year cs i
    rw [gen_receipt_fst]
    rfl
  · intro year cs i j hij
    rw [seqAt_shift year cs i, seqAt_shift year cs j]
    omega

/-- Witness for C2: concretely, starting from an empty counter table the
first issuance creates the 2026 row at 1, and the first two sequence
numbers are strictly increasing. -/
theorem receipt_numbers_sequential_witness :
    (generate_receipt_number 2026 []).2 = [] ++ [{ year := 2026, last_number := 0 + 1 }] ∧
    seqAt 2026 [] 0 < seqAt 2026 [] 1 :=
  ⟨receipt_numbers_sequential.2.1 2026 [] rfl,
   receipt_numbers_sequential.2.2.2.2 2026 [] 0 1 (by decide)⟩

/-! Explicit characterization of the collect_fee happy path (claims C1, C3,
C4, C8, C10). -/

/-- The total_due field collect_fee computes: item sum, plus the carried
balance when the previous-balance rule applies. -/
def collectTotalDue (student : Student) (items : List SelectedItem) : ℚ :=
  if prevBalanceApplies student items then
    itemsTotal items + pyFloatOrZero student.current_balance
  else itemsTotal items

/-- The payment_breakdown collect_fee stores: per-item entries, plus the
carried-forward entry when the previous-balance rule applies. -/
def collectBreakdown (student : Student) (items : List SelectedItem) : List (String × ℚ) :=
  if prevBalanceApplies student items then
    dictInsert (itemsBreakdown items) "Previous Balance|Carried Forward"
      (pyFloatOrZero student.current_balance)
  else itemsBreakdown items

/-- The ledger row collect_fee inserts. -/
def collectLedger (db : DB) (year : Nat) (pay : PaymentRequest) (student : Student) :
    StudentFeeLedger :=
  { student_id := pay.student_id,
    receipt_no := (generate_receipt_number year db.receipt_counters).1,
    months_paid := pay.selected_months,
    total_due := collectTotalDue student pay.selected_items,
    discount := pay.discount, fine := pay.fine,
    net_payable := collectTotalDue student pay.selected_items - pay.discount + pay.fine,
    paid_amount := pay.amount_received,
    balance_due := collectTotalDue student pay.selected_items - pay.discount + pay.fine
      - pay.amount_received,
    payment_mode := pay.payment_mode, remarks := pay.remarks,
    payment_breakdown := collectBreakdown student pay.selected_items }

/-- The database state after the ledger insert and counter increment are
flushed, before the balance write. -/
def collectMid (db : DB) (year : Nat) (pay : PaymentRequest) (student : Student) : DB :=
  { db with ledgers := db.ledgers ++ [collectLedger db year pay student],
            receipt_counters := (generate_receipt_number year db.receipt_counters).2 }

/-- The committed database state of a successful collect_fee call. -/
def collectPost (db : DB) (current : String) (year : Nat) (pay : PaymentRequest)
    (student : Student) : DB :=
  { collectMid db year pay student with
      students := setStudentBalance (collectMid db year pay student).students pay.student_id
        (calculate_student_dues (collectMid db year pay student) student current) }

lemma collect_fee_eq (db : DB) (c : String) (y : Nat) (pay : PaymentRequest)
    (student : Student) (hf : findStudent db pay.student_id = some student) :
    collect_fee db c y pay = Except.ok (collectPost db c y pay student,
      (generate_receipt_number y db.receipt_counters).1,
      calculate_student_dues (collectMid db y pay student) student c) := by
  unfold collect_fee
  rw [hf]
  rfl

lemma collect_fee_error (db : DB) (c : String) (y : Nat) (pay : PaymentRequest)
    (hf : findStudent db pay.student_id = none) :
    collect_fee db c y pay = Except.error "Student not found" := by
  unfold collect_fee
  rw [hf]

/-! Concrete fixtures used by the witness theorems. -/

/-- Example student with no carried balance. -/
def exStudent : Student := ⟨1, 5, false, none, true, 0⟩

/-- Example student carrying a previous balance of 700. -/
def exStudentPrev : Student := ⟨1, 5, false, none, true, 700⟩

/-- Example monthly fee head. -/
def exHead : FeeHeadMaster := ⟨1, "Tuition Fee", "Monthly", false, true⟩

/-- Example structure row: class 5 pays 1000 per month for head 1. -/
def exStructure : FeeStructure := ⟨1, 5, 1, 1000, "2025-2026", true⟩

/-- Example database: one student, one head, one structure, nothing else. -/
def exDB : DB := ⟨[exStudent], [exHead], [exStructure], [], [], [], [], []⟩

/-- Example database whose student carries a previous balance. -/
def exDBPrev : DB := ⟨[exStudentPrev], [exHead], [exStructure], [], [], [], [], []⟩

/-- Example overpayment: one 1000 item paid with 2000 received, so the
ledger's balance_due is negative. -/
def exPay : PaymentRequest :=
  ⟨1, ["Apr"], [⟨some "Tuition Fee", some "Apr", some 1000⟩], "Cash", 0, 0, 2000, none⟩

/-- C1: on every successful collect_fee call the inserted ledger row
satisfies net_payable = total_due - discount + fine and
balance_due = net_payable - paid_amount exactly, with total_due equal to
the sum of the selected item amounts plus the carried balance exactly when
the previous-balance rule applies; and the call succeeds for any
amount_received, so a negative balance_due (an advance) is not an error. -/
theorem ledger_row_arithmetic :
    (∀ (db : DB) (c : String) (y : Nat) (pay : PaymentRequest) (db' : DB) (r : String) (b : ℚ),
        collect_fee db c y pay = Except.ok (db', r, b) →
        ∃ student l, findStudent db pay.student_id = some student ∧
          db'.ledgers = db.ledgers ++ [l] ∧
          l.net_payable = l.total_due - l.discount + l.fine ∧
          l.balance_due = l.net_payable - l.paid_amount ∧
          l.discount = pay.discount ∧ l.fine = pay.fine ∧
          l.paid_amount = pay.amount_received ∧
          l.total_due = itemsTotal pay.selected_items +
            (if prevBalanceApplies student pay.selected_items
             then pyFloatOrZero student.current_balance else 0)) ∧
    (∀ (db : DB) (c : String) (y : Nat) (pay : PaymentRequest) (student : Student),
        findStudent db pay.student_id = some student →
        ∃ (db' : DB) (r : String) (b : ℚ), collect_fee db c y pay = Except.ok (db', r, b)) := by
  constructor
  · intro db c y pay db' r b h
    cases hf : findStudent db pay.student_id with
    | none => rw [collect_fee_error db c y pay hf] at h; cases h
    | some student =>
      rw [collect_fee_eq db c y pay student hf] at h
      simp only [Except.ok.injEq, Prod.mk.injEq] at h
      obtain ⟨hdb, hmid⟩ := h
      subst hdb
      refine ⟨student, collectLedger db y pay student, rfl, rfl, rfl, rfl, rfl, rfl, rfl, ?_⟩
      show collectTotalDue student pay.selected_items = _
      unfold collectTotalDue
      by_cases ha : prevBalanceApplies student pay.selected_items <;> simp [ha]
  · intro db c y pay student hf
    exact ⟨_, _, _, collect_fee_eq db c y pay student hf⟩

/-- Witness for C1: a concrete overpayment (1000 due, 2000 received)
succeeds and its ledger row satisfies the arithmetic identities. -/
theorem ledger_row_arithmetic_witness :
    ∃ student l, findStudent exDB exPay.student_id = some student ∧
      (collectPost exDB "Apr" 2026 exPay exStudent).ledgers = exDB.ledgers ++ [l] ∧
      l.net_payable = l.total_due - l.discount + l.fine ∧
      l.balance_due = l.net_payable - l.paid_amount ∧
      l.discount = exPay.discount ∧ l.fine = exPay.fine ∧
      l.paid_amount = exPay.amount_received ∧
      l.total_due = itemsTotal exPay.selected_items +
        (if prevBalanceApplies student exPay.selected_items
         then pyFloatOrZero student.current_balance else 0) :=
  ledger_row_arithmetic.1 exDB "Apr" 2026 exPay
    (collectPost exDB "Apr" 2026 exPay exStudent)
    (generate_receipt_number 2026 exDB.receipt_counters).1
    (calculate_student_dues (collectMid exDB 2026 exPay exStudent) exStudent "Apr")
    (collect_fee_eq exDB "Apr" 2026 exPay exStudent rfl)

/-- C4: the carried balance is folded into total_due (and a Previous
Balance entry added to the breakdown) if and only if it is positive and no
selected item already names a previous-balance line; when such a line is
already selected the balance is not added a second time. -/
theorem previous_balance_idempotence :
    ∀ (db : DB) (c : String) (y : Nat) (pay : PaymentRequest) (db' : DB) (r : String) (b : ℚ)
      (student : Student),
      collect_fee db c y pay = Except.ok (db', r, b) →
      findStudent db pay.student_id = some student →
      ∃ l, db'.ledgers = db.ledgers ++ [l] ∧
        (prevBalanceApplies student pay.selected_items = true ↔
          (0 < pyFloatOrZero student.current_balance ∧
           prevBalanceIncluded pay.selected_items = false)) ∧
        (prevBalanceIncluded pay.selected_items = true ↔
          ∃ item ∈ pay.selected_items,
            (((item.fee_head.getD "").toLower).startsWith "previous balance") = true) ∧
        (if prevBalanceApplies student pay.selected_items then
            l.total_due = itemsTotal pay.selected_items + pyFloatOrZero student.current_balance ∧
            l.payment_breakdown = dictInsert (itemsBreakdown pay.selected_items)
              "Previous Balance|Carried Forward" (pyFloatOrZero student.current_balance)
         else
            l.total_due = itemsTotal pay.selected_items ∧
            l.payment_breakdown = itemsBreakdown pay.selected_items) := by
  intro db c y pay db' r b student h hf
  rw [collect_fee_eq db c y pay student hf] at h
  simp only [Except.ok.injEq, Prod.mk.injEq] at h
  obtain ⟨hdb, hmid⟩ := h
  subst hdb
  refine ⟨collectLedger db y pay student, rfl, ?_, ?_, ?_⟩
  · simp [prevBalanceApplies, Bool.and_eq_true, decide_eq_true_eq]
  · simp [prevBalanceIncluded, List.any_eq_true]
  · by_cases ha : prevBalanceApplies student pay.selected_items <;>
      simp [ha, collectLedger, collectTotalDue, collectBreakdown]

/-- Witness for C4: the student with carried balance 700 and no
previous-balance item gets the balance folded in exactly once. -/
theorem previous_balance_idempotence_witness :
    ∃ l, (collectPost exDBPrev "Apr" 2026 exPay exStudentPrev).ledgers
        = exDBPrev.ledgers ++ [l] ∧
      (prevBalanceApplies exStudentPrev exPay.selected_items = true ↔
        (0 < pyFloatOrZero exStudentPrev.current_balance ∧
         prevBalanceIncluded exPay.selected_items = false)) ∧
      (prevBalanceIncluded exPay.selected_items = true ↔
        ∃ item ∈ exPay.selected_items,
          (((item.fee_head.getD "").toLower).startsWith "previous balance") = true) ∧
      (if prevBalanceApplies exStudentPrev exPay.selected_items then
          l.total_due = itemsTotal exPay.selected_items +
            pyFloatOrZero exStudentPrev.current_balance ∧
          l.payment_breakdown = dictInsert (itemsBreakdown exPay.selected_items)
            "Previous Balance|Carried Forward" (pyFloatOrZero exStudentPrev.current_balance)
       else
          l.total_due = itemsTotal exPay.selected_items ∧
          l.payment_breakdown = itemsBreakdown exPay.selected_items) :=
  previous_balance_idempotence exDBPrev "Apr" 2026 exPay
    (collectPost exDBPrev "Apr" 2026 exPay exStudentPrev)
    (generate_receipt_number 2026 exDBPrev.receipt_counters).1
    (calculate_student_dues (collectMid exDBPrev 2026 exPay exStudentPrev) exStudentPrev "Apr")
    exStudentPrev
    (collect_fee_eq exDBPrev "Apr" 2026 exPay exStudentPrev rfl) rfl

/-! Paid-month bookkeeping (claims C7 and C8). -/

/-- Example database whose PaidMonth projection marks April as paid while
no ledger row mentions it. -/
def exDBPaidRow : DB := ⟨[exStudent], [exHead], [exStructure], [], [], [],
  [⟨1, "Apr", "2025-26"⟩], []⟩

/-- Counterexample to C7: the dues computation never reads the PaidMonth
projection, so a month recorded only there is still reported Due. -/
theorem paidmonth_rows_ignored_cex :
    (⟨1, "Apr", "2025-26"⟩ : PaidMonth) ∈ exDBPaidRow.paid_months ∧
    allPaidMonths exDBPaidRow 1 = [] ∧
    (⟨"Tuition Fee", 1, "Apr", 1000, "Due", false⟩ : DueLine)
      ∈ getStudentDuesList exDBPaidRow exStudent "Apr" ∧
    (∀ l ∈ getStudentDuesList exDBPaidRow exStudent "Apr", l.status ≠ "Paid") := by
  decide

/-- C7 (amended): the paid-month set of the dues computation is the union
of months_paid across the ledger rows of the student only; the PaidMonth
projection is never consulted, so both dues computations are invariant
under arbitrary changes of the paid_months table. -/
theorem paid_months_union_of_ledgers :
    ∀ (db : DB) (sid : Nat) (m : String) (s : Student) (c : String) (pm : List PaidMonth),
      (m ∈ allPaidMonths db sid ↔
        ∃ l ∈ db.ledgers, l.student_id = sid ∧ m ∈ l.months_paid) ∧
      getStudentDuesList { db with paid_months := pm } s c = getStudentDuesList db s c ∧
      calculate_student_dues { db with paid_months := pm } s c
        = calculate_student_dues db s c := by
  intro db sid m s c pm
  refine ⟨?_, rfl, rfl⟩
  unfold allPaidMonths
  simp only [List.mem_flatten, List.mem_map, List.mem_filter, beq_iff_eq]
  constructor
  · rintro ⟨ms, ⟨l, ⟨hl, hsid⟩, rfl⟩, hm⟩
    exact ⟨l, hl, hsid, hm⟩
  · rintro ⟨l, hl, hsid, hm⟩
    exact ⟨l.months_paid, ⟨l, ⟨hl, hsid⟩, rfl⟩, hm⟩

/-- Number of PaidMonth rows for a given student and month. -/
def countPaidMonth (rows : List PaidMonth) (sid : Nat) (m : String) : Nat :=
  rows.countP (fun r => r.student_id == sid && r.month == m)

/-- The post state of a successful concrete collect_fee call, used to
exhibit the missing PaidMonth mirroring. -/
def exCollectPost : DB :=
  match collect_fee exDB "Apr" 2026 exPay with
  | Except.ok (d, _, _) => d
  | Except.error _ => exDB

/-- Counterexample to C8: after a successful collect_fee payment for April
the new ledger row lists April in months_paid, yet the PaidMonth table is
still empty, violating the claimed projection invariant. -/
theorem collect_fee_skips_paidmonth_cex :
    (∃ l ∈ exCollectPost.ledgers, "Apr" ∈ l.months_paid) ∧
    exCollectPost.paid_months = [] := by
  decide

lemma insertPaidMonths_cons (sid : Nat) (m0 : String) (ms : List String)
    (rows : List PaidMonth) :
    insertPaidMonths sid (m0 :: ms) rows =
      insertPaidMonths sid ms
        (if rows.any (fun r => r.student_id == sid && r.month == m0) then rows
         else rows ++ [{ student_id := sid, month := m0, session := "2025-26" }]) := rfl

lemma any_iff_countPaidMonth_pos (rows : List PaidMonth) (sid : Nat) (m : String) :
    rows.any (fun r => r.student_id == sid && r.month == m) = true ↔
      0 < countPaidMonth rows sid m := by
  rw [countPaidMonth, List.countP_pos_iff, List.any_eq_true]

lemma insertPaidMonths_count (sid : Nat) :
    ∀ (ms : List String) (rows : List PaidMonth) (m : String),
      countPaidMonth (insertPaidMonths sid ms rows) sid m
        = if countPaidMonth rows sid m = 0 ∧ m ∈ ms then 1
          else countPaidMonth rows sid m := by
  intro ms
  induction ms with
  | nil => intro rows m; simp [insertPaidMonths]
  | cons m0 ms ih =>
    intro rows m
    rw [insertPaidMonths_cons]
    cases hany : rows.any (fun r => r.student_id == sid && r.month == m0) with
    | true =>
      have hpos : 0 < countPaidMonth rows sid m0 :=
        (any_iff_countPaidMonth_pos rows sid m0).1 hany
      rw [if_pos rfl, ih]
      by_cases hm : m = m0
      · subst hm
        rw [if_neg (fun hc => (Nat.pos_iff_ne_zero.mp hpos) hc.1),
            if_neg (fun hc => (Nat.pos_iff_ne_zero.mp hpos) hc.1)]
      · have hmem : (m ∈ m0 :: ms) ↔ (m ∈ ms) := by simp [hm]
        by_cases hc : countPaidMonth rows sid m = 0 ∧ m ∈ ms
        · rw [if_pos hc, if_pos ⟨hc.1, hmem.mpr hc.2⟩]
        · rw [if_neg hc, if_neg (fun hc2 => hc ⟨hc2.1, hmem.mp hc2.2⟩)]
    | false =>
      have hzero : countPaidMonth rows sid m0 = 0 := by
        by_contra hne
        have hpos : 0 < countPaidMonth rows sid m0 := Nat.pos_of_ne_zero hne
        rw [(any_iff_countPaidMonth_pos rows sid m0).2 hpos] at hany
        cases hany
      rw [if_neg (by simp), ih]
      have happ : countPaidMonth
          (rows ++ [{ student_id := sid, month := m0, session := "2025-26" }]) sid m
            = countPaidMonth rows sid m + (if m = m0 then 1 else 0) := by
        unfold countPaidMonth
        rw [List.countP_append]
        by_cases hm : m = m0
        · subst hm; simp [List.countP_cons]
        · have hm2 : ¬(m0 = m) := fun h => hm h.symm
          simp [List.countP_cons, hm, hm2]
      rw [happ]
      by_cases hm : m = m0
      · subst hm
        simp [hzero]
      · simp only [hm, if_false, Nat.add_zero]
        have hmem : (m ∈ m0 :: ms) ↔ (m ∈ ms) := by simp [hm]
        by_cases hc : countPaidMonth rows sid m = 0 ∧ m ∈ ms
        · rw [if_pos hc, if_pos ⟨hc.1, hmem.mpr hc.2⟩]
        · rw [if_neg hc, if_neg (fun hc2 => hc ⟨hc2.1, hmem.mp hc2.2⟩)]

/-- C8 (amended): collect_fee never writes the PaidMonth projection (its
transaction leaves paid_months untouched, so the claimed invariant fails
for payments through the Payment Processor); only the legacy
submit_full_payment endpoint mirrors months, and it does so idempotently:
every month of the request ends up with a row, and a month already present
is skipped (the row count becomes 1 only when it was 0, and is otherwise
unchanged). -/
theorem paidmonth_mirroring :
    (∀ (db : DB) (c : String) (y : Nat) (pay : PaymentRequest) (db' : DB) (r : String) (b : ℚ),
        collect_fee db c y pay = Except.ok (db', r, b) →
        db'.paid_months = db.paid_months) ∧
    (∀ (db : DB) (pay : FullPaymentRequest) (m : String), m ∈ pay.paid_months_list →
        ∃ row ∈ (submit_full_payment db pay).paid_months,
          row.student_id = pay.student_id ∧ row.month = m) ∧
    (∀ (db : DB) (pay : FullPaymentRequest) (m : String),
        countPaidMonth (submit_full_payment db pay).paid_months pay.student_id m
          = if countPaidMonth db.paid_months pay.student_id m = 0 ∧ m ∈ pay.paid_months_list
            then 1 else countPaidMonth db.paid_months pay.student_id m) := by
  have hcount : ∀ (db : DB) (pay : FullPaymentRequest) (m : String),
      countPaidMonth (submit_full_payment db pay).paid_months pay.student_id m
        = if countPaidMonth db.paid_months pay.student_id m = 0 ∧ m ∈ pay.paid_months_list
          then 1 else countPaidMonth db.paid_months pay.student_id m := by
    intro db pay m
    exact insertPaidMonths_count pay.student_id pay.paid_months_list db.paid_months m
  refine ⟨?_, ?_, hcount⟩
  · intro db c y pay db' r b h
    cases hf : findStudent db pay.student_id with
    | none => rw [collect_fee_error db c y pay hf] at h; cases h
    | some student =>
      rw [collect_fee_eq db c y pay student hf] at h
      simp only [Except.ok.injEq, Prod.mk.injEq] at h
      rw [← h.1]
      rfl
  · intro db pay m hm
    have hpos : 0 < countPaidMonth (submit_full_payment db pay).paid_months pay.student_id m := by
      rw [hcount db pay m]
      by_cases hc : countPaidMonth db.paid_months pay.student_id m = 0
      · rw [if_pos ⟨hc, hm⟩]; omega
      · rw [if_neg (fun hc2 => hc hc2.1)]; omega
    rw [countPaidMonth, List.countP_pos_iff] at hpos
    obtain ⟨row, hrow, hp⟩ := hpos
    rw [Bool.and_eq_true, beq_iff_eq, beq_iff_eq] at hp
    exact ⟨row, hrow, hp.1, hp.2⟩

/-- Example legacy payment request covering April and May. -/
def exFullPay : FullPaymentRequest :=
  ⟨1, 2000, 0, 0, 2000, 2000, 0, "Cash", none, ["Apr", "May"]⟩

/-- Witness for C8 (amended): the legacy endpoint applied to a state that
already has an April row adds May, and the April row count stays 1. -/
theorem paidmonth_mirroring_witness :
    (∃ row ∈ (submit_full_payment exDBPaidRow exFullPay).paid_months,
        row.student_id = exFullPay.student_id ∧ row.month = "May") ∧
    countPaidMonth (submit_full_payment exDBPaidRow exFullPay).paid_months
        exFullPay.student_id "Apr"
      = if countPaidMonth exDBPaidRow.paid_months exFullPay.student_id "Apr" = 0 ∧
            "Apr" ∈ exFullPay.paid_months_list
        then 1 else countPaidMonth exDBPaidRow.paid_months exFullPay.student_id "Apr" :=
  ⟨paidmonth_mirroring.2.1 exDBPaidRow exFullPay "May" (by decide),
   paidmonth_mirroring.2.2 exDBPaidRow exFullPay "Apr"⟩

/-! Amount filtering in the dues computations (claim C9). -/

/-- Predicate for a structure row whose joined fee head exists and is not a
transport head; exactly the rows both dues loops turn into class-fee
amounts. -/
def nonTransportHead (db : DB) (fs : FeeStructure) : Bool :=
  match feeHeadVal db fs with
  | some h => !h.is_transport
  | none => false

/-- Example structure row with amount 0, reachable through the structure
endpoints (the Pydantic validator allows amount = 0 and the update path
keeps the row active). -/
def exStructureZero : FeeStructure := ⟨1, 5, 1, 0, "2025-2026", true⟩

/-- Example database whose only structure row has amount 0. -/
def exDBZero : DB := ⟨[exStudent], [exHead], [exStructureZero], [], [], [], [], []⟩

/-- Counterexample to C9: get_student_dues emits a line item for an active
structure row with amount 0, so not every emitted line has a strictly
positive amount. -/
theorem zero_amount_line_emitted_cex :
    (∃ fs ∈ exDBZero.fee_structures, fs.is_active = true ∧ fs.amount ≤ 0) ∧
    (∃ l ∈ getStudentDuesList exDBZero exStudent "Apr", ¬(0 < l.amount)) := by
  decide

lemma duesQuery_drop_nonpos (db : DB) (cid : Nat) :
    duesQueryStructures
      { db with fee_structures := db.fee_structures.filter (fun fs => decide (0 < fs.amount)) }
      cid = duesQueryStructures db cid := by
  unfold duesQueryStructures
  show (db.fee_structures.filter _).filter _ = _
  rw [List.filter_filter]
  apply List.filter_congr
  intro fs _
  cases hpos : decide (0 < fs.amount) <;> simp [hpos]

lemma mem_classLinesFor {db : DB} {structures : List FeeStructure} {paid : List String}
    {m : String} {l : DueLine} (hl : l ∈ classLinesFor db structures paid m) :
    ∃ fs ∈ structures, ∃ h0, feeHeadVal db fs = some h0 ∧ h0.is_transport = false ∧
      l = { fee_head := h0.head_name, fee_head_id := fs.fee_head_id, month := m,
            amount := fs.amount, status := monthStatus paid m, is_transport := false } := by
  unfold classLinesFor at hl
  rw [List.mem_filterMap] at hl
  obtain ⟨fs, hfs, hsome⟩ := hl
  split at hsome
  · split at hsome
    · cases hsome
    · rename_i h0 hh ht
      injection hsome with h2
      subst h2
      exact ⟨fs, hfs, h0, hh, by simpa using ht, rfl⟩
  · cases hsome

/-- C9 (amended): calculate_student_dues indeed never counts a structure
row with amount not strictly positive (dropping those rows from the table
does not change its result), but get_student_dues emits a line item for
every active structure row of the class regardless of amount; its line
amounts are strictly positive only under the assumption that every active
structure row of the class has a strictly positive amount. -/
theorem dues_amount_emission :
    (∀ (db : DB) (s : Student) (c : String),
        calculate_student_dues
          { db with fee_structures :=
              db.fee_structures.filter (fun fs => decide (0 < fs.amount)) } s c
          = calculate_student_dues db s c) ∧
    (∀ (db : DB) (s : Student) (c : String),
        (∀ fs ∈ db.fee_structures, fs.is_active = true → fs.class_id = s.class_id →
          0 < fs.amount) →
        ∀ l ∈ getStudentDuesList db s c, l.is_transport = false → 0 < l.amount) := by
  constructor
  · intro db s c
    unfold calculate_student_dues
    rw [duesQuery_drop_nonpos]
    rfl
  · intro db s c hpos l hl hnt
    unfold getStudentDuesList at hl
    rw [List.mem_append] at hl
    cases hl with
    | inl hcl =>
      rw [List.mem_flatMap] at hcl
      obtain ⟨m, hm, hline⟩ := hcl
      obtain ⟨fs, hfs, h0, hh, ht, rfl⟩ := mem_classLinesFor hline
      unfold classStructures at hfs
      rw [List.mem_filter] at hfs
      obtain ⟨hfsmem, hcond⟩ := hfs
      rw [Bool.and_eq_true, beq_iff_eq] at hcond
      exact hpos fs hfsmem hcond.2 hcond.1
    | inr htr =>
      unfold transportLinesFor at htr
      cases htf : transportFor db s with
      | none => rw [htf] at htr; cases htr
      | some t =>
        rw [htf] at htr
        rw [List.mem_map] at htr
        obtain ⟨m, hm, heq⟩ := htr
        rw [← heq] at hnt
        cases hnt

/-- Witness for C9 (amended): in the all-positive example configuration the
concrete April tuition line has a strictly positive amount. -/
theorem dues_amount_emission_witness :
    0 < (⟨"Tuition Fee", 1, "Apr", 1000, "Due", false⟩ : DueLine).amount :=
  dues_amount_emission.2 exDB exStudent "Apr" (by decide)
    ⟨"Tuition Fee", 1, "Apr", 1000, "Due", false⟩ (by decide) rfl

/-! Fee-head frequency handling (claim C6). -/

/-- Example one-time fee head. -/
def exHeadOneTime : FeeHeadMaster := ⟨1, "Admission Fee", "One-time", false, true⟩

/-- Example database whose only head is one-time with a 100 structure row. -/
def exDBOneTime : DB :=
  ⟨[exStudent], [exHeadOneTime], [⟨1, 5, 1, 100, "2025-2026", true⟩], [], [], [], [], []⟩

/-- Counterexample to C6: a head whose frequency is One-time is emitted as
a Due line for every month of the academic sequence (here April and May),
not at most once. -/
theorem one_time_head_emitted_monthly_cex :
    exDBOneTime.fee_heads = [⟨1, "Admission Fee", "One-time", false, true⟩] ∧
    ((getStudentDuesList exDBOneTime exStudent "May").filter
        (fun l => l.fee_head_id == 1 && l.status == "Due")).length = 2 := by
  decide

lemma months_nodup (c : String) : (get_months_till_current c).Nodup := by
  unfold get_months_till_current
  split
  · exact (List.take_sublist _ _).nodup (by decide)
  · decide

lemma feeHeadVal_map_frequency (db : DB) (fr : String) (fs : FeeStructure) :
    feeHeadVal { db with fee_heads := db.fee_heads.map (fun h => { h with frequency := fr }) } fs
      = (feeHeadVal db fs).map (fun h => { h with frequency := fr }) := by
  unfold feeHeadVal
  rw [List.find?_map]
  rfl

lemma classLinesFor_map_frequency (db : DB) (fr : String) (structures : List FeeStructure)
    (paid : List String) (m : String) :
    classLinesFor { db with fee_heads := db.fee_heads.map (fun h => { h with frequency := fr }) }
        structures paid m
      = classLinesFor db structures paid m := by
  induction structures with
  | nil => rfl
  | cons fs rest ih =>
    unfold classLinesFor at *
    rw [List.filterMap_cons, List.filterMap_cons, feeHeadVal_map_frequency]
    cases hh : feeHeadVal db fs with
    | none => simpa using ih
    | some h0 =>
      by_cases ht : h0.is_transport = true <;> simp [ht, ih]

lemma classLinesFor_length (db : DB) (structures : List FeeStructure) (paid : List String)
    (m : String) :
    (classLinesFor db structures paid m).length
      = (structures.filter (nonTransportHead db)).length := by
  induction structures with
  | nil => rfl
  | cons fs rest ih =>
    unfold classLinesFor at *
    rw [List.filterMap_cons, List.filter_cons]
    cases hh : feeHeadVal db fs with
    | none => simp [nonTransportHead, hh, ih]
    | some h0 =>
      by_cases ht : h0.is_transport = true <;> simp [nonTransportHead, hh, ht, ih]

lemma classLinesFor_filter_by_month (db : DB) (structures : List FeeStructure)
    (paid : List String) (mm m : String) :
    (classLinesFor db structures paid mm).filter (fun l => !l.is_transport && l.month == m)
      = if mm = m then classLinesFor db structures paid mm else [] := by
  by_cases hm : mm = m
  · rw [if_pos hm]
    apply List.filter_eq_self.mpr
    intro l hl
    obtain ⟨fs, _, h0, _, _, rfl⟩ := mem_classLinesFor hl
    simp [hm]
  · rw [if_neg hm]
    apply List.filter_eq_nil_iff.mpr
    intro l hl
    obtain ⟨fs, _, h0, _, _, rfl⟩ := mem_classLinesFor hl
    simp [hm]

lemma flatMap_filter_month_length (db : DB) (structures : List FeeStructure)
    (paid : List String) (m : String) :
    ∀ (months : List String), months.Nodup → m ∈ months →
      ((months.flatMap (fun mm => classLinesFor db structures paid mm)).filter
          (fun l => !l.is_transport && l.month == m)).length
        = (classLinesFor db structures paid m).length := by
  intro months
  induction months with
  | nil => intro _ h; cases h
  | cons m0 rest ih =>
    intro hnd hm
    rw [List.flatMap_cons, List.filter_append, List.length_append,
        classLinesFor_filter_by_month]
    by_cases h0 : m0 = m
    · subst h0
      rw [if_pos rfl]
      have hnotin : m0 ∉ rest := (List.nodup_cons.mp hnd).1
      have hrest : ((rest.flatMap (fun mm => classLinesFor db structures paid mm)).filter
          (fun l => !l.is_transport && l.month == m0)) = [] := by
        apply List.filter_eq_nil_iff.mpr
        intro l hl
        rw [List.mem_flatMap] at hl
        obtain ⟨mm, hmm, hline⟩ := hl
        obtain ⟨fs, _, h0, _, _, rfl⟩ := mem_classLinesFor hline
        have : mm ≠ m0 := fun he => hnotin (he ▸ hmm)
        simp [this]
      rw [hrest]
      simp
    · rw [if_neg h0]
      simp only [List.length_nil, Nat.zero_add]
      have hmem : m ∈ rest := by
        cases List.mem_cons.mp hm with
        | inl h => exact absurd h.symm h0
        | inr h => exact h
      exact ih (List.nodup_cons.mp hnd).2 hmem

/-- C6 (amended): the dues computation ignores fee-head frequency entirely.
Changing every head frequency (for example to One-time) leaves the dues
list unchanged, and for every month of the academic sequence the list has
exactly one non-transport line item per active structure row of the class
with a resolvable non-transport head — so one-time and annual heads are
emitted every month exactly like monthly heads. -/
theorem dues_frequency_ignored :
    (∀ (db : DB) (s : Student) (c : String) (fr : String),
        getStudentDuesList
          { db with fee_heads := db.fee_heads.map (fun h => { h with frequency := fr }) } s c
          = getStudentDuesList db s c) ∧
    (∀ (db : DB) (s : Student) (c : String) (m : String), m ∈ get_months_till_current c →
        ((getStudentDuesList db s c).filter
            (fun l => !l.is_transport && l.month == m)).length
          = ((classStructures db s.class_id).filter (nonTransportHead db)).length) := by
  constructor
  · intro db s c fr
    unfold getStudentDuesList
    simp only [classLinesFor_map_frequency]
    rfl
  · intro db s c m hm
    unfold getStudentDuesList
    rw [List.filter_append, List.length_append]
    have htr : ((transportLinesFor db s (allPaidMonths db s.id)
          (get_months_till_current c)).filter
          (fun (l : DueLine) => !l.is_transport && l.month == m)) = [] := by
      unfold transportLinesFor
      cases htf : transportFor db s with
      | none => rfl
      | some t =>
        apply List.filter_eq_nil_iff.mpr
        intro l hl
        rw [List.mem_map] at hl
        obtain ⟨mm, _, rfl⟩ := hl
        simp
    rw [htr]
    rw [flatMap_filter_month_length db _ _ m _ (months_nodup c) hm,
        classLinesFor_length]
    simp

/-- Witness for C6 (amended): in the concrete example as of May, April has
exactly one non-transport line, matching the single active structure row. -/
theorem dues_frequency_ignored_witness :
    ((getStudentDuesList exDB exStudent "May").filter
        (fun l => !l.is_transport && l.month == "Apr")).length
      = ((classStructures exDB exStudent.class_id).filter (nonTransportHead exDB)).length :=
  dues_frequency_ignored.2 exDB exStudent "May" "Apr" (by decide)

/-! Relating calculate_student_dues to the GET dues total (claim C3). -/

/-- Sum of the amounts of the non-transport-head rows of a structure list:
the per-month class fee both dues computations charge. -/
def baseFee (db : DB) (structures : List FeeStructure) : ℚ :=
  ((structures.filter (nonTransportHead db)).map (fun fs => fs.amount)).sum

lemma pyFloatOrZero_eq (x : ℚ) : pyFloatOrZero x = x := by
  unfold pyFloatOrZero
  split
  · rename_i h; exact h.symm
  · rfl

lemma foldl_add_f {α : Type} (f : α → ℚ) :
    ∀ (l : List α) (a : ℚ), l.foldl (fun acc x => acc + f x) a = a + (l.map f).sum := by
  intro l
  induction l with
  | nil => intro a; simp
  | cons x xs ih =>
    intro a
    rw [List.foldl_cons, ih, List.map_cons, List.sum_cons]
    ring

lemma baseFee_cons (db : DB) (fs : FeeStructure) (l : List FeeStructure) :
    baseFee db (fs :: l) = (if nonTransportHead db fs then fs.amount else 0) + baseFee db l := by
  unfold baseFee
  rw [List.filter_cons]
  cases hn : nonTransportHead db fs <;> simp [hn]

lemma foldl_head_sum (db : DB) :
    ∀ (l : List FeeStructure) (a : ℚ),
      l.foldl (fun acc fs =>
        match feeHeadVal db fs with
        | some h => if h.is_transport then acc else acc + fs.amount
        | none => acc) a
      = a + baseFee db l := by
  intro l
  induction l with
  | nil => intro a; simp [baseFee]
  | cons fs rest ih =>
    intro a
    rw [List.foldl_cons, baseFee_cons]
    cases hh : feeHeadVal db fs with
    | none =>
      simp only [hh]
      rw [ih]
      simp [nonTransportHead, hh]
    | some h0 =>
      by_cases ht : h0.is_transport = true
      · simp only [hh, if_pos ht]
        rw [ih]
        simp [nonTransportHead, hh, ht]
      · simp only [hh, if_neg ht]
        rw [ih]
        simp only [nonTransportHead, hh, Bool.not_eq_true] at *
        rw [if_pos (by simp [ht])]
        ring

lemma due_beq_due : (("Due" : String) == "Due") = true := by decide

lemma ncontains {l : List String} {m : String} (hc : l.contains m = false) :
    ¬(l.contains m = true) := by
  rw [hc]
  exact Bool.false_ne_true

lemma paid_beq_due : (("Paid" : String) == "Due") = false := by decide

lemma classLinesFor_amounts_sum (db : DB) (paid : List String) (m : String) :
    ∀ structures : List FeeStructure,
      ((classLinesFor db structures paid m).map (fun l => l.amount)).sum
        = baseFee db structures := by
  intro structures
  induction structures with
  | nil => rfl
  | cons fs rest ih =>
    rw [baseFee_cons]
    unfold classLinesFor at *
    rw [List.filterMap_cons]
    cases hh : feeHeadVal db fs with
    | none =>
      simp only [hh]
      rw [ih]
      simp [nonTransportHead, hh]
    | some h0 =>
      by_cases ht : h0.is_transport = true
      · simp only [hh, if_pos ht]
        rw [ih]
        simp [nonTransportHead, hh, ht]
      · simp only [hh, if_neg ht]
        rw [List.map_cons, List.sum_cons, ih]
        have hn : nonTransportHead db fs = true := by simp [nonTransportHead, hh, ht]
        rw [if_pos hn]

lemma filter_due_classLinesFor (db : DB) (structures : List FeeStructure)
    (paid : List String) (m : String) :
    (classLinesFor db structures paid m).filter (fun l => l.status == "Due")
      = if paid.contains m then [] else classLinesFor db structures paid m := by
  cases hc : paid.contains m
  · rw [if_neg Bool.false_ne_true]
    apply List.filter_eq_self.mpr
    intro l hl
    obtain ⟨fs, _, h0, _, _, rfl⟩ := mem_classLinesFor hl
    have hs : monthStatus paid m = "Due" := by
      unfold monthStatus
      rw [hc, if_neg Bool.false_ne_true]
    simp [hs]
  · rw [if_pos rfl]
    apply List.filter_eq_nil_iff.mpr
    intro l hl
    obtain ⟨fs, _, h0, _, _, rfl⟩ := mem_classLinesFor hl
    have hs : monthStatus paid m = "Paid" := by
      unfold monthStatus
      rw [hc, if_pos rfl]
    simp [hs]

lemma classLinesFor_due_sum (db : DB) (structures : List FeeStructure) (paid : List String)
    (m : String) :
    (((classLinesFor db structures paid m).filter (fun l => l.status == "Due")).map
        (fun l => l.amount)).sum
      = if paid.contains m then 0 else baseFee db structures := by
  rw [filter_due_classLinesFor]
  cases hc : paid.contains m
  · rw [if_neg Bool.false_ne_true, if_neg Bool.false_ne_true, classLinesFor_amounts_sum]
  · rw [if_pos rfl, if_pos rfl]
    rfl

lemma flatMap_due_sum (db : DB) (structures : List FeeStructure) (paid : List String) :
    ∀ months : List String,
      (((months.flatMap (fun m => classLinesFor db structures paid m)).filter
          (fun l => l.status == "Due")).map (fun l => l.amount)).sum
        = (months.map (fun m => if paid.contains m then 0 else baseFee db structures)).sum := by
  intro months
  induction months with
  | nil => rfl
  | cons m ms ih =>
    rw [List.flatMap_cons, List.filter_append, List.map_append, List.sum_append, ih,
        classLinesFor_due_sum, List.map_cons, List.sum_cons]

/-- The transport charge a student attracts per month: the pickup point
charge when the transport lookup succeeds, zero otherwise. -/
def transportCharge (db : DB) (s : Student) : ℚ :=
  match transportFor db s with
  | some t => t.monthly_charge
  | none => 0

lemma month_const_zero_sum (paid : List String) :
    ∀ months : List String,
      (months.map (fun m => if paid.contains m then (0 : ℚ) else 0)).sum = 0 := by
  intro months
  induction months with
  | nil => rfl
  | cons m ms ih =>
    rw [List.map_cons, List.sum_cons, ih]
    split <;> simp

lemma month_sum_add (paid : List String) (x y : ℚ) :
    ∀ months : List String,
      (months.map (fun m => if paid.contains m then 0 else x + y)).sum
        = (months.map (fun m => if paid.contains m then 0 else x)).sum
          + (months.map (fun m => if paid.contains m then 0 else y)).sum := by
  intro months
  induction months with
  | nil => simp
  | cons m ms ih =>
    rw [List.map_cons, List.map_cons, List.map_cons, List.sum_cons, List.sum_cons,
        List.sum_cons, ih]
    cases hc : paid.contains m
    · simp only [hc, Bool.false_eq_true, if_false]
      ring
    · simp only [hc, eq_self_iff_true, if_true]
      ring

lemma foldl_if_sum (v : ℚ) (p : String → Bool) :
    ∀ (l : List String) (a : ℚ),
      l.foldl (fun acc m => if p m then acc else acc + v) a
        = a + (l.map (fun m => if p m then 0 else v)).sum := by
  intro l
  induction l with
  | nil => intro a; simp
  | cons x xs ih =>
    intro a
    rw [List.foldl_cons]
    cases hx : p x with
    | true => simp [hx, ih]
    | false =>
      simp only [hx, Bool.false_eq_true, if_false, List.map_cons, List.sum_cons]
      rw [ih]
      ring

lemma due_filter_map_sum (paid : List String) (v : ℚ) (mk : String → DueLine)
    (hst : ∀ m, (mk m).status = monthStatus paid m) (hamt : ∀ m, (mk m).amount = v) :
    ∀ months : List String,
      (((months.map mk).filter (fun l => l.status == "Due")).map (fun l => l.amount)).sum
        = (months.map (fun m => if paid.contains m then 0 else v)).sum := by
  intro months
  induction months with
  | nil => rfl
  | cons m ms ih =>
    rw [List.map_cons]
    simp only [List.filter_cons]
    rw [hst m]
    unfold monthStatus
    cases hc : paid.contains m
    · simp only [hc, Bool.false_eq_true, if_false, due_beq_due, if_true]
      rw [List.map_cons, List.sum_cons, hamt, ih, List.map_cons, List.sum_cons]
      congr 1
      rw [if_neg (ncontains hc)]
    · simp only [hc, eq_self_iff_true, if_true, paid_beq_due, Bool.false_eq_true, if_false]
      rw [ih, List.map_cons, List.sum_cons, if_pos hc, zero_add]

lemma transportLines_due_sum (db : DB) (s : Student) (paid : List String)
    (months : List String) :
    (((transportLinesFor db s paid months).filter (fun l => l.status == "Due")).map
        (fun l => l.amount)).sum
      = (months.map (fun m => if paid.contains m then 0 else transportCharge db s)).sum := by
  unfold transportLinesFor transportCharge
  cases htf : transportFor db s with
  | none =>
    show (0 : ℚ) = (months.map (fun m => if paid.contains m then (0 : ℚ) else 0)).sum
    rw [month_const_zero_sum]
  | some t =>
    exact due_filter_map_sum paid t.monthly_charge _ (fun m => rfl) (fun m => rfl) months

/-- The GET dues total as a per-month sum: for every month up to the
current one, zero when paid, otherwise the class fee plus the transport
charge. -/
lemma getStudentDuesTotal_eq (db : DB) (s : Student) (c : String) :
    getStudentDuesTotal db s c
      = ((get_months_till_current c).map (fun m =>
          if (allPaidMonths db s.id).contains m then 0
          else baseFee db (classStructures db s.class_id) + transportCharge db s)).sum := by
  unfold getStudentDuesTotal getStudentDuesList
  rw [foldl_add_f, List.filter_append, List.map_append, List.sum_append, flatMap_due_sum,
      transportLines_due_sum, zero_add, ← month_sum_add]

/-- calculate_student_dues as a clamped per-month sum over the
positive-amount structure query. -/
lemma calc_as_month_sum (db : DB) (s : Student) (c : String) :
    calculate_student_dues db s c
      = max (((get_months_till_current c).map (fun m =>
          if (allPaidMonths db s.id).contains m then 0
          else baseFee db (duesQueryStructures db s.class_id) + transportCharge db s)).sum) 0 := by
  simp only [calculate_student_dues, pyFloatOrZero_eq]
  rw [foldl_head_sum, zero_add, foldl_if_sum, zero_add]
  rfl

lemma baseFee_filter_pos (db : DB) (q : FeeStructure → Bool) :
    ∀ l : List FeeStructure, (∀ fs ∈ l, 0 ≤ fs.amount) →
      baseFee db (l.filter (fun fs => q fs && decide (0 < fs.amount)))
        = baseFee db (l.filter q) := by
  intro l
  induction l with
  | nil => intro _; rfl
  | cons fs rest ih =>
    intro h
    have hrest := ih (fun x hx => h x (List.mem_cons_of_mem _ hx))
    rw [List.filter_cons, List.filter_cons]
    cases hq : q fs with
    | false =>
      simp only [hq, Bool.false_and, Bool.false_eq_true, if_false]
      exact hrest
    | true =>
      by_cases hpos : 0 < fs.amount
      · simp only [hq, Bool.true_and, decide_eq_true hpos, eq_self_iff_true, if_true]
        rw [baseFee_cons, baseFee_cons, hrest]
      · have h0 : fs.amount = 0 :=
          le_antisymm (not_lt.mp hpos) (h fs (List.mem_cons_self fs rest))
        simp only [hq, Bool.true_and, decide_eq_false hpos, Bool.false_eq_true, if_false,
          eq_self_iff_true, if_true]
        rw [baseFee_cons, hrest, h0]
        cases hn : nonTransportHead db fs <;> simp [hn]

lemma baseFee_query_eq (db : DB) (cid : Nat)
    (hS : ∀ fs ∈ db.fee_structures, 0 ≤ fs.amount) :
    baseFee db (duesQueryStructures db cid) = baseFee db (classStructures db cid) := by
  unfold duesQueryStructures classStructures
  exact baseFee_filter_pos db (fun fs => fs.class_id == cid && fs.is_active)
    db.fee_structures hS

lemma transportFor_mem {db : DB} {s : Student} {t : TransportMaster}
    (h : transportFor db s = some t) : t ∈ db.transport_points := by
  unfold transportFor at h
  split at h
  · cases h
  · split at h
    · exact List.mem_of_find?_eq_some h
    · cases h

lemma baseFee_nonneg (db : DB) (l : List FeeStructure) (h : ∀ fs ∈ l, 0 ≤ fs.amount) :
    0 ≤ baseFee db l := by
  unfold baseFee
  apply List.sum_nonneg
  intro x hx
  rw [List.mem_map] at hx
  obtain ⟨fs, hfs, rfl⟩ := hx
  exact h fs (List.mem_of_mem_filter hfs)

lemma transportCharge_nonneg (db : DB) (s : Student)
    (hT : ∀ t ∈ db.transport_points, 0 ≤ t.monthly_charge) :
    0 ≤ transportCharge db s := by
  unfold transportCharge
  cases htf : transportFor db s with
  | none => exact le_refl 0
  | some t => exact hT t (transportFor_mem htf)

lemma getStudentDuesTotal_nonneg (db : DB) (s : Student) (c : String)
    (hS : ∀ fs ∈ db.fee_structures, 0 ≤ fs.amount)
    (hT : ∀ t ∈ db.transport_points, 0 ≤ t.monthly_charge) :
    0 ≤ getStudentDuesTotal db s c := by
  rw [getStudentDuesTotal_eq]
  apply List.sum_nonneg
  intro x hx
  rw [List.mem_map] at hx
  obtain ⟨m, _, rfl⟩ := hx
  split
  · exact le_refl 0
  · exact add_nonneg
      (baseFee_nonneg db _ (fun fs hfs => hS fs (List.mem_of_mem_filter hfs)))
      (transportCharge_nonneg db s hT)

lemma calc_eq_max_total (db : DB) (s : Student) (c : String)
    (hS : ∀ fs ∈ db.fee_structures, 0 ≤ fs.amount) :
    calculate_student_dues db s c = max (getStudentDuesTotal db s c) 0 := by
  rw [calc_as_month_sum, getStudentDuesTotal_eq]
  simp only [baseFee_query_eq db s.class_id hS]

lemma calc_eq_total (db : DB) (s : Student) (c : String)
    (hS : ∀ fs ∈ db.fee_structures, 0 ≤ fs.amount)
    (hT : ∀ t ∈ db.transport_points, 0 ≤ t.monthly_charge) :
    calculate_student_dues db s c = getStudentDuesTotal db s c := by
  rw [calc_eq_max_total db s c hS]
  exact max_eq_left (getStudentDuesTotal_nonneg db s c hS hT)

lemma findStudent_setBalance (ss : List Student) (sid : Nat) (b : ℚ) :
    (setStudentBalance ss sid b).find? (fun s => s.id == sid)
      = (ss.find? (fun s => s.id == sid)).map (fun s => { s with current_balance := b }) := by
  induction ss with
  | nil => rfl
  | cons s rest ih =>
    by_cases h : s.id = sid
    · simp [setStudentBalance, List.find?_cons, h]
    · simp only [setStudentBalance, List.map_cons] at *
      rw [if_neg (by simp [h]), List.find?_cons, List.find?_cons]
      simp only [show (s.id == sid) = false by simp [h]]
      exact ih

lemma getTotal_post_eq (db : DB) (c : String) (y : Nat) (pay : PaymentRequest)
    (student : Student) (b : ℚ) :
    getStudentDuesTotal (collectPost db c y pay student)
        { student with current_balance := b } c
      = getStudentDuesTotal (collectMid db y pay student) student c := rfl

/-- C3 (amended): under nonnegative structure amounts (which the structure
endpoints enforce), the stored-balance computation equals the GET dues
total clamped at zero; when transport charges are also nonnegative the two
agree exactly, and after a successful collect_fee the stored balance equals
the dues total the endpoint would report on the committed state.  Without
the transport hypothesis the two can differ, because transport charges are
not validated (see the counterexample). -/
theorem balance_matches_dues_endpoint (db : DB) (c : String)
    (hS : ∀ fs ∈ db.fee_structures, 0 ≤ fs.amount) :
    (∀ s : Student, calculate_student_dues db s c = max (getStudentDuesTotal db s c) 0) ∧
    ((∀ t ∈ db.transport_points, 0 ≤ t.monthly_charge) →
      (∀ s : Student, calculate_student_dues db s c = getStudentDuesTotal db s c) ∧
      (∀ (y : Nat) (pay : PaymentRequest) (db' : DB) (r : String) (b : ℚ),
          collect_fee db c y pay = Except.ok (db', r, b) →
          ∀ st, findStudent db' pay.student_id = some st →
            st.current_balance = getStudentDuesTotal db' st c)) := by
  refine ⟨fun s => calc_eq_max_total db s c hS,
    fun hT => ⟨fun s => calc_eq_total db s c hS hT, ?_⟩⟩
  intro y pay db' r b h st hst
  cases hf : findStudent db pay.student_id with
  | none => rw [collect_fee_error db c y pay hf] at h; cases h
  | some student =>
    rw [collect_fee_eq db c y pay student hf] at h
    simp only [Except.ok.injEq, Prod.mk.injEq] at h
    obtain ⟨hdb, hmid⟩ := h
    subst hdb
    have hpost : findStudent (collectPost db c y pay student) pay.student_id
        = some { student with current_balance :=
            calculate_student_dues (collectMid db y pay student) student c } := by
      show (setStudentBalance (collectMid db y pay student).students pay.student_id
          (calculate_student_dues (collectMid db y pay student) student c)).find?
          (fun s => s.id == pay.student_id) = _
      rw [findStudent_setBalance]
      rw [show (collectMid db y pay student).students = db.students from rfl]
      rw [show db.students.find? (fun s => s.id == pay.student_id) = some student from hf]
      rfl
    rw [hpost] at hst
    injection hst with hst
    subst hst
    exact calc_eq_total (collectMid db y pay student) student c hS hT

/-- Example transport-opted student. -/
def exStudentTr : Student := ⟨1, 5, true, some 7, true, 0⟩

/-- Example database with a negative transport charge, reachable because
the transport master endpoint does not validate the sign of the charge. -/
def exDBNegTransport : DB := ⟨[exStudentTr], [], [], [⟨7, -500⟩], [], [], [], []⟩

/-- Example empty payment (no items, nothing received). -/
def exPayEmpty : PaymentRequest := ⟨1, [], [], "Cash", 0, 0, 0, none⟩

/-- State after collecting the empty payment on the negative-charge state. -/
def exCollectPostNeg : DB :=
  match collect_fee exDBNegTransport "Apr" 2026 exPayEmpty with
  | Except.ok (d, _, _) => d
  | Except.error _ => exDBNegTransport

/-- The mid-transaction state of that payment. -/
def exNegMid : DB := collectMid exDBNegTransport 2026 exPayEmpty exStudentTr

/-- The balance collect_fee stores for the transport-opted student on the
negative-charge state. -/
def exNegBal : ℚ := calculate_student_dues exNegMid exStudentTr "Apr"

lemma exNeg_calc_zero : calculate_student_dues exDBNegTransport exStudentTr "Apr" = 0 := by
  rw [calc_as_month_sum]
  show max (((["Apr"] : List String).map (fun m =>
      if ([] : List String).contains m then 0 else (0 : ℚ) + -500)).sum) 0 = 0
  norm_num

lemma exNeg_total : getStudentDuesTotal exDBNegTransport exStudentTr "Apr" = -500 := by
  rw [getStudentDuesTotal_eq]
  show (((["Apr"] : List String).map (fun m =>
      if ([] : List String).contains m then 0 else (0 : ℚ) + -500)).sum) = -500
  norm_num

lemma exNegBal_zero : exNegBal = 0 := by
  unfold exNegBal
  rw [calc_as_month_sum]
  show max (((["Apr"] : List String).map (fun m =>
      if ([] : List String).contains m then 0 else (0 : ℚ) + -500)).sum) 0 = 0
  norm_num

/-- Counterexample to C3 as stated: on a reachable state with a negative
transport charge (the transport endpoint does not validate the sign),
calculate_student_dues clamps at zero while the dues endpoint reports a
raw total of -500; after a successful collect_fee call the stored balance
is 0 while the endpoint reports -500 on the committed state, so the two
computations do not agree on every reachable state. -/
theorem balance_matches_dues_endpoint_cex :
    calculate_student_dues exDBNegTransport exStudentTr "Apr" = 0 ∧
    getStudentDuesTotal exDBNegTransport exStudentTr "Apr" = -500 ∧
    (∃ st, findStudent exCollectPostNeg 1 = some st ∧
      st.current_balance = 0 ∧ getStudentDuesTotal exCollectPostNeg st "Apr" = -500) ∧
    ¬((0 : ℚ) = -500) := by
  refine ⟨exNeg_calc_zero, exNeg_total, ?_, by norm_num⟩
  have hpostdb : exCollectPostNeg = collectPost exDBNegTransport "Apr" 2026 exPayEmpty exStudentTr := by
    unfold exCollectPostNeg
    rw [collect_fee_eq exDBNegTransport "Apr" 2026 exPayEmpty exStudentTr rfl]
  refine ⟨{ exStudentTr with current_balance := exNegBal }, ?_, exNegBal_zero, ?_⟩
  · rw [hpostdb]
    show (setStudentBalance exNegMid.students 1 exNegBal).find? (fun s => s.id == 1)
      = some { exStudentTr with current_balance := exNegBal }
    rw [findStudent_setBalance]
    rfl
  · rw [hpostdb]
    show getStudentDuesTotal exNegMid exStudentTr "Apr" = -500
    rw [getStudentDuesTotal_eq]
    show (((["Apr"] : List String).map (fun m =>
        if ([] : List String).contains m then 0 else (0 : ℚ) + -500)).sum) = -500
    norm_num

/-- Witness for C3 (amended): on the all-nonnegative example the two dues
computations agree exactly. -/
theorem balance_matches_dues_endpoint_witness :
    calculate_student_dues exDB exStudent "Aug" = getStudentDuesTotal exDB exStudent "Aug" :=
  ((balance_matches_dues_endpoint exDB "Aug" (by decide)).2 (by decide)).1 exStudent

/-! Balance sync idempotence (claims C5 and C10). -/

/-- One pending balance write: target student id and value. -/
def applyWrite (w : Nat × ℚ) (s : Student) : Student :=
  if s.id == w.1 then { s with current_balance := w.2 } else s

/-- Apply a sequence of balance writes to one student row, later writes
overriding earlier ones. -/
def applyWrites (ws : List (Nat × ℚ)) (s : Student) : Student :=
  ws.foldl (fun s w => applyWrite w s) s

/-- Value of the last write in the sequence that targets the given id. -/
def lastVal (ws : List (Nat × ℚ)) (i : Nat) : Option ℚ :=
  ws.foldl (fun acc w => if i == w.1 then some w.2 else acc) none

/-- Apply an optional balance value to a student row. -/
def applyVal : Option ℚ → Student → Student
  | none, s => s
  | some v, s => { s with current_balance := v }

lemma setStudentBalance_eq_map (ss : List Student) (sid : Nat) (b : ℚ) :
    setStudentBalance ss sid b = ss.map (applyWrite (sid, b)) := rfl

lemma foldl_lastVal (i : Nat) :
    ∀ (ws : List (Nat × ℚ)) (acc : Option ℚ),
      ws.foldl (fun acc w => if i == w.1 then some w.2 else acc) acc
        = (lastVal ws i).or acc := by
  intro ws
  induction ws with
  | nil => intro acc; rfl
  | cons w ws ih =>
    intro acc
    rw [List.foldl_cons, ih]
    have hcons : lastVal (w :: ws) i
        = (lastVal ws i).or (if i == w.1 then some w.2 else none) := by
      show ws.foldl _ (if i == w.1 then some w.2 else none) = _
      rw [ih]
    rw [hcons]
    cases hlv : lastVal ws i with
    | some v => rfl
    | none =>
      cases hw : (i == w.1) <;> simp [hw]

lemma applyWrite_id (w : Nat × ℚ) (s : Student) : (applyWrite w s).id = s.id := by
  unfold applyWrite
  split <;> rfl

lemma applyVal_set (o : Option ℚ) (s : Student) (x : ℚ) :
    applyVal o { s with current_balance := x }
      = if o.isSome then applyVal o s else { s with current_balance := x } := by
  cases o <;> rfl

lemma applyWrites_eq (ws : List (Nat × ℚ)) :
    ∀ s : Student, applyWrites ws s = applyVal (lastVal ws s.id) s := by
  induction ws with
  | nil => intro s; rfl
  | cons w ws ih =>
    intro s
    show applyWrites ws (applyWrite w s) = _
    rw [ih (applyWrite w s)]
    have hid := applyWrite_id w s
    rw [hid]
    have hcons : lastVal (w :: ws) s.id
        = (lastVal ws s.id).or (if s.id == w.1 then some w.2 else none) := by
      show ws.foldl _ (if s.id == w.1 then some w.2 else none) = _
      rw [foldl_lastVal]
    rw [hcons]
    cases hlv : lastVal ws s.id with
    | some v =>
      unfold applyWrite
      cases hw : (s.id == w.1) <;> simp [hw, applyVal]
    | none =>
      unfold applyWrite applyVal
      cases hw : (s.id == w.1) <;> simp [hw]

lemma applyWrites_id (ws : List (Nat × ℚ)) (s : Student) :
    (applyWrites ws s).id = s.id := by
  rw [applyWrites_eq]
  cases lastVal ws s.id <;> rfl

lemma applyWrites_status (ws : List (Nat × ℚ)) (s : Student) :
    (applyWrites ws s).status = s.status := by
  rw [applyWrites_eq]
  cases lastVal ws s.id <;> rfl

lemma applyWrites_class_id (ws : List (Nat × ℚ)) (s : Student) :
    (applyWrites ws s).class_id = s.class_id := by
  rw [applyWrites_eq]
  cases lastVal ws s.id <;> rfl

lemma applyWrites_transport (ws : List (Nat × ℚ)) (s : Student) :
    (applyWrites ws s).transport_opted = s.transport_opted := by
  rw [applyWrites_eq]
  cases lastVal ws s.id <;> rfl

lemma applyWrites_pickup (ws : List (Nat × ℚ)) (s : Student) :
    (applyWrites ws s).pickup_point_id = s.pickup_point_id := by
  rw [applyWrites_eq]
  cases lastVal ws s.id <;> rfl

lemma applyWrites_idem (ws : List (Nat × ℚ)) (s : Student) :
    applyWrites ws (applyWrites ws s) = applyWrites ws s := by
  rw [applyWrites_eq (s := applyWrites ws s), applyWrites_id, applyWrites_eq]
  cases lastVal ws s.id <;> rfl

/-- calculate_student_dues only reads the non-student tables. -/
lemma calc_students_irrel (db : DB) (x : List Student) (s : Student) (c : String) :
    calculate_student_dues { db with students := x } s c
      = calculate_student_dues db s c := rfl

/-- calculate_student_dues only reads the identity, class and transport
fields of the student row, never its stored balance or status. -/
lemma calc_student_congr (db : DB) (c : String) (s s2 : Student)
    (h1 : s2.id = s.id) (h2 : s2.class_id = s.class_id)
    (h3 : s2.transport_opted = s.transport_opted)
    (h4 : s2.pickup_point_id = s.pickup_point_id) :
    calculate_student_dues db s2 c = calculate_student_dues db s c := by
  unfold calculate_student_dues allPaidMonths duesQueryStructures transportFor
  rw [h1, h2, h3, h4]

lemma calc_applyWrites (db : DB) (c : String) (ws : List (Nat × ℚ)) (s : Student) :
    calculate_student_dues db (applyWrites ws s) c = calculate_student_dues db s c :=
  calc_student_congr db c s (applyWrites ws s) (applyWrites_id ws s)
    (applyWrites_class_id ws s) (applyWrites_transport ws s) (applyWrites_pickup ws s)

/-- The balance writes issued by one sync run over a student snapshot. -/
def writesFor (db : DB) (c : String) (A : List Student) : List (Nat × ℚ) :=
  A.map (fun a => (a.id, calculate_student_dues db a c))

lemma map_applyWrites_nil (l : List Student) :
    l.map (applyWrites ([] : List (Nat × ℚ))) = l := by
  induction l with
  | nil => rfl
  | cons x xs ih =>
    rw [List.map_cons, ih]
    rfl

lemma sync_foldl_spec (c : String) :
    ∀ (A : List Student) (d : DB) (n : Nat) (t : ℚ),
      A.foldl (syncStep c) (d, n, t)
        = ({ d with students := d.students.map (applyWrites (writesFor d c A)) },
           n + A.length,
           t + (A.map (fun a => calculate_student_dues d a c)).sum) := by
  intro A
  induction A with
  | nil =>
    intro d n t
    rw [List.foldl_nil]
    have h1 : d.students.map (applyWrites (writesFor d c [])) = d.students :=
      map_applyWrites_nil d.students
    rw [h1, List.map_nil, List.sum_nil, add_zero]
    rfl
  | cons a A ih =>
    intro d n t
    have hstep : syncStep c (d, n, t) a = ({ d with students := setStudentBalance d.students a.id (calculate_student_dues d a c) }, n + 1, t + calculate_student_dues d a c) := rfl
    rw [List.foldl_cons, hstep, ih]
    have hw : writesFor ({ d with students := setStudentBalance d.students a.id (calculate_student_dues d a c) } : DB) c A = writesFor d c A := rfl
    rw [hw]
    have hs : ({ d with students := setStudentBalance d.students a.id (calculate_student_dues d a c) } : DB).students = d.students.map (applyWrite (a.id, calculate_student_dues d a c)) := rfl
    rw [hs, List.map_map]
    have hcomp : d.students.map (applyWrites (writesFor d c A) ∘ applyWrite (a.id, calculate_student_dues d a c)) = d.students.map (applyWrites (writesFor d c (a :: A))) := rfl
    rw [hcomp]
    have hsum : (A.map (fun x => calculate_student_dues ({ d with students := setStudentBalance d.students a.id (calculate_student_dues d a c) } : DB) x c)).sum = (A.map (fun x => calculate_student_dues d x c)).sum := rfl
    rw [hsum]
    have e2 : n + 1 + A.length = n + (a :: A).length := by
      rw [List.length_cons]
      omega
    have e3 : t + calculate_student_dues d a c
          + ((A.map (fun a => calculate_student_dues d a c)).sum)
        = t + (((a :: A).map (fun a => calculate_student_dues d a c)).sum) := by
      rw [List.map_cons, List.sum_cons]
      ring
    rw [e2, e3]

/-- Closed form of one sync run: every student row receives the write
sequence of the active-student snapshot, and the response reports the
active count and the sum of the recomputed balances. -/
lemma sync_spec (db : DB) (c : String) :
    sync_all_student_balances db c
      = ({ db with students := db.students.map (applyWrites (writesFor db c (db.students.filter (fun s => s.status)))) },
         (db.students.filter (fun s => s.status)).length,
         ((db.students.filter (fun s => s.status)).map
            (fun a => calculate_student_dues db a c)).sum) := by
  unfold sync_all_student_balances
  rw [sync_foldl_spec, Nat.zero_add, zero_add]

lemma filter_map_status (ws : List (Nat × ℚ)) (l : List Student) :
    (l.map (applyWrites ws)).filter (fun s => s.status)
      = (l.filter (fun s => s.status)).map (applyWrites ws) := by
  induction l with
  | nil => rfl
  | cons x xs ih =>
    rw [List.map_cons, List.filter_cons, List.filter_cons, applyWrites_status]
    cases hx : x.status <;> simp [hx, ih]

lemma writesFor_students_irrel (db : DB) (x : List Student) (c : String) (A : List Student) :
    writesFor { db with students := x } c A = writesFor db c A := rfl

/-- C5: running the Balance Sync Job twice in a row with no intervening
changes is idempotent: the second run returns exactly the same database
state, the same updated count and the same total pending dues as the
first. -/
theorem sync_all_idempotent (db : DB) (c : String) :
    sync_all_student_balances (sync_all_student_balances db c).1 c
      = sync_all_student_balances db c := by
  have hfst : (sync_all_student_balances db c).1
      = { db with students := db.students.map (applyWrites (writesFor db c (db.students.filter (fun s => s.status)))) } := by
    rw [sync_spec db c]
  rw [hfst]
  set A := db.students.filter (fun s => s.status) with hA
  set ws := writesFor db c A with hws
  set S1 := db.students.map (applyWrites ws) with hS1
  rw [sync_spec { db with students := S1 } c, sync_spec db c]
  have hst : ({ db with students := S1 } : DB).students = S1 := rfl
  rw [hst]
  have hA1 : S1.filter (fun s => s.status) = A.map (applyWrites ws) := by
    rw [hS1, hA]
    exact filter_map_status ws db.students
  rw [hA1]
  have hws1 : writesFor ({ db with students := S1 } : DB) c (A.map (applyWrites ws))
      = ws := by
    rw [writesFor_students_irrel]
    unfold writesFor
    rw [List.map_map]
    rw [hws]
    unfold writesFor
    apply List.map_congr_left
    intro a _
    show ((applyWrites ws a).id, calculate_student_dues db (applyWrites ws a) c) = _
    rw [applyWrites_id, calc_applyWrites]
  rw [hws1]
  have hstudents : S1.map (applyWrites ws) = S1 := by
    rw [hS1, List.map_map]
    apply List.map_congr_left
    intro s _
    exact applyWrites_idem ws s
  rw [hstudents]
  have hlen : (A.map (applyWrites ws)).length = A.length := List.length_map A _
  rw [hlen]
  have hsum : ((A.map (applyWrites ws)).map
        (fun a => calculate_student_dues ({ db with students := S1 } : DB) a c)).sum
      = (A.map (fun a => calculate_student_dues db a c)).sum := by
    rw [List.map_map]
    congr 1
    apply List.map_congr_left
    intro a _
    show calculate_student_dues ({ db with students := S1 } : DB) (applyWrites ws a) c = _
    rw [show calculate_student_dues ({ db with students := S1 } : DB) (applyWrites ws a) c
        = calculate_student_dues db (applyWrites ws a) c from rfl]
    rw [calc_applyWrites]
  rw [hsum]

lemma calc_nonneg (db : DB) (s : Student) (c : String) :
    0 ≤ calculate_student_dues db s c :=
  le_max_right _ _

lemma lastVal_cons (w : Nat × ℚ) (ws : List (Nat × ℚ)) (i : Nat) :
    lastVal (w :: ws) i = (lastVal ws i).or (if i == w.1 then some w.2 else none) := by
  show ws.foldl _ (if i == w.1 then some w.2 else none) = _
  rw [foldl_lastVal]

lemma lastVal_mem (i : Nat) :
    ∀ (ws : List (Nat × ℚ)) (v : ℚ), lastVal ws i = some v → (i, v) ∈ ws := by
  intro ws
  induction ws with
  | nil => intro v h; cases h
  | cons w ws ih =>
    intro v h
    rw [lastVal_cons] at h
    cases hlv : lastVal ws i with
    | some u =>
      rw [hlv] at h
      injection h with h
      subst h
      exact List.mem_cons_of_mem w (ih u hlv)
    | none =>
      rw [hlv] at h
      cases hw : (i == w.1) with
      | true =>
        rw [hw] at h
        simp only [Option.none_or, if_true] at h
        injection h with h2
        have hiw : i = w.1 := beq_iff_eq.mp hw
        rw [List.mem_cons]
        left
        rw [← h2, hiw]
      | false =>
        rw [hw] at h
        simp at h

lemma lastVal_ne_none (i : Nat) :
    ∀ ws : List (Nat × ℚ), (∃ w ∈ ws, w.1 = i) → lastVal ws i ≠ none := by
  intro ws
  induction ws with
  | nil => rintro ⟨w, hw, _⟩; cases hw
  | cons w ws ih =>
    rintro ⟨w2, hw2, hi⟩
    rw [lastVal_cons]
    rw [List.mem_cons] at hw2
    cases hw2 with
    | inl he =>
      subst he
      rw [show (i == w2.1) = true by rw [hi]; exact beq_self_eq_true i]
      cases lastVal ws i <;> simp
    | inr hmem =>
      have := ih ⟨w2, hmem, hi⟩
      cases hlv : lastVal ws i with
      | none => exact absurd hlv this
      | some u => simp

/-- After a successful collect_fee, the first student row with the paid
student id carries exactly the recomputed balance. -/
lemma collectPost_findStudent (db : DB) (c : String) (y : Nat) (pay : PaymentRequest)
    (student : Student) (hf : findStudent db pay.student_id = some student) :
    findStudent (collectPost db c y pay student) pay.student_id
      = some { student with current_balance :=
          calculate_student_dues (collectMid db y pay student) student c } := by
  show (setStudentBalance (collectMid db y pay student).students pay.student_id
      (calculate_student_dues (collectMid db y pay student) student c)).find?
      (fun s => s.id == pay.student_id) = _
  rw [findStudent_setBalance]
  rw [show (collectMid db y pay student).students = db.students from rfl]
  rw [show db.students.find? (fun s => s.id == pay.student_id) = some student from hf]
  rfl

/-- C10: every balance the core writes is the clamped dues recomputation
and hence never negative: calculate_student_dues is max(raw total, 0) and
nonnegative; collect_fee stores exactly its result and reports it; every
active student after a sync run has a nonnegative stored balance; and
recalculate_single_student stores and reports the same nonnegative value. -/
theorem stored_balance_clamped :
    (∀ (db : DB) (s : Student) (c : String), 0 ≤ calculate_student_dues db s c) ∧
    (∀ (db : DB) (c : String) (y : Nat) (pay : PaymentRequest) (db' : DB) (r : String) (b : ℚ),
        collect_fee db c y pay = Except.ok (db', r, b) →
        0 ≤ b ∧ ∀ st, findStudent db' pay.student_id = some st → st.current_balance = b) ∧
    (∀ (db : DB) (c : String) (s2 : Student),
        s2 ∈ (sync_all_student_balances db c).1.students → s2.status = true →
        0 ≤ s2.current_balance) ∧
    (∀ (db : DB) (sid : Nat) (c : String) (db' : DB) (old nb : ℚ),
        recalculate_single_student db sid c = Except.ok (db', old, nb) →
        0 ≤ nb ∧ ∀ st, findStudent db' sid = some st → st.current_balance = nb) := by
  refine ⟨calc_nonneg, ?_, ?_, ?_⟩
  · intro db c y pay db' r b h
    cases hf : findStudent db pay.student_id with
    | none => rw [collect_fee_error db c y pay hf] at h; cases h
    | some student =>
      rw [collect_fee_eq db c y pay student hf] at h
      simp only [Except.ok.injEq, Prod.mk.injEq] at h
      obtain ⟨hdb, hmid, hb⟩ := h
      subst hdb
      subst hb
      refine ⟨calc_nonneg _ _ _, ?_⟩
      intro st hst
      rw [collectPost_findStudent db c y pay student hf] at hst
      injection hst with hst
      rw [← hst]
  · intro db c s2 hmem hstatus
    rw [sync_spec db c] at hmem
    rw [show ({ db with students := db.students.map (applyWrites (writesFor db c (db.students.filter (fun s => s.status)))) } : DB).students = db.students.map (applyWrites (writesFor db c (db.students.filter (fun s => s.status)))) from rfl] at hmem
    rw [List.mem_map] at hmem
    obtain ⟨s, hs, rfl⟩ := hmem
    have hsact : s.status = true := by
      rw [← applyWrites_status (writesFor db c (db.students.filter (fun s => s.status))) s]
      exact hstatus
    have hsA : s ∈ db.students.filter (fun s => s.status) :=
      List.mem_filter.mpr ⟨hs, hsact⟩
    have hwmem : (s.id, calculate_student_dues db s c)
        ∈ writesFor db c (db.students.filter (fun s => s.status)) := by
      unfold writesFor
      exact List.mem_map.mpr ⟨s, hsA, rfl⟩
    rw [applyWrites_eq]
    cases hlv : lastVal (writesFor db c (db.students.filter (fun s => s.status))) s.id with
    | none =>
      exact absurd hlv (lastVal_ne_none s.id _ ⟨_, hwmem, rfl⟩)
    | some v =>
      have hvmem := lastVal_mem s.id _ v hlv
      unfold writesFor at hvmem
      rw [List.mem_map] at hvmem
      obtain ⟨a, _, ha⟩ := hvmem
      have hv : v = calculate_student_dues db a c := by
        have := congrArg Prod.snd ha
        exact this.symm
      show 0 ≤ v
      rw [hv]
      exact calc_nonneg db a c
  · intro db sid c db' old nb h
    cases hf : findStudent db sid with
    | none =>
      unfold recalculate_single_student at h
      rw [hf] at h
      cases h
    | some student =>
      unfold recalculate_single_student at h
      rw [hf] at h
      simp only [Except.ok.injEq, Prod.mk.injEq] at h
      obtain ⟨hdb, hold, hnb⟩ := h
      subst hnb
      refine ⟨calc_nonneg _ _ _, ?_⟩
      intro st hst
      rw [← hdb] at hst
      rw [show ({ db with students := setStudentBalance db.students sid (calculate_student_dues db student c) } : DB) = { db with students := setStudentBalance db.students sid (calculate_student_dues db student c) } from rfl] at hst
      have : findStudent ({ db with students := setStudentBalance db.students sid (calculate_student_dues db student c) } : DB) sid = some { student with current_balance := calculate_student_dues db student c } := by
        show (setStudentBalance db.students sid (calculate_student_dues db student c)).find? (fun s => s.id == sid) = _
        rw [findStudent_setBalance]
        rw [show db.students.find? (fun s => s.id == sid) = some student from hf]
        rfl
      rw [this] at hst
      injection hst with hst
      rw [← hst]

/-- Witness for C10: on the concrete overpayment example, collect_fee
stores the clamped nonnegative recomputed balance and reports it. -/
theorem stored_balance_clamped_witness :
    0 ≤ calculate_student_dues (collectMid exDB 2026 exPay exStudent) exStudent "Apr" ∧
    ∀ st, findStudent (collectPost exDB "Apr" 2026 exPay exStudent) exPay.student_id
        = some st →
      st.current_balance
        = calculate_student_dues (collectMid exDB 2026 exPay exStudent) exStudent "Apr" :=
  stored_balance_clamped.2.1 exDB "Apr" 2026 exPay
    (collectPost exDB "Apr" 2026 exPay exStudent)
    (generate_receipt_number 2026 exDB.receipt_counters).1
    (calculate_student_dues (collectMid exDB 2026 exPay exStudent) exStudent "Apr")
    (collect_fee_eq exDB "Apr" 2026 exPay exStudent rfl)

end SchoolERP